import Mathlib

/-!
Shallow embedding of `recomendation.py`: a KNN-based book recommender.

The source builds a rating matrix from two CSV tables (books and rating
events), filtering out low-activity users and books, pivoting into an
item-by-user table (duplicate `(user, isbn)` entries are averaged by
the default `mean` aggregation of `pivot_table`, absent cells filled with 0),
relabelling rows from isbn to title, then fits a cosine-distance
`NearestNeighbors` index and answers top-K similarity queries.

Modelling decisions:
* CSV parsing, encodings, file errors and logging are out of scope; the
  pipeline takes the already-parsed row collections as lists.
* Ratings are rationals (idealising the float32 values of the source).
* The cosine similarity of the query row `q` with a row `v` is the real
  number `dotp q v / Real.sqrt (normSq q * normSq v)`.  To keep the code
  executable we never compute that square root: every similarity is
  represented exactly by the pair `(dotp q v, normSq q * normSq v)`, and
  rows are ordered by the rational key `d * |d| / p`, which is a strictly
  monotone image of the similarity (the map `x ↦ x * |x|` is strictly
  monotone, and `(d / sqrt p) * |d / sqrt p| = d * |d| / p`).  Bridging
  lemmas relate the key order to the real similarity order.
* `NearestNeighbors.kneighbors` returns rows by increasing cosine distance
  and raises when more neighbours are requested than fitted rows; exact
  distance ties are broken by an unspecified internal order, modelled here
  deterministically by ascending row position.
* `pandas.Index.get_loc` on the title index is modelled as the first
  position carrying the title.  With duplicate titles or duplicate isbns
  in the books table the real program degenerates (ambiguous `get_loc`,
  length-mismatched relabel join); theorems that would be affected carry
  explicit uniqueness hypotheses.
-/

namespace Recomendation

/-- One parsed row of the ratings CSV: `{user, isbn, rating}`. -/
structure Rating where
  user : Int
  isbn : String
  rating : ℚ

/-- One parsed row of the books CSV before `dropna`; any field may be missing. -/
structure RawBook where
  isbn : Option String
  title : Option String
  author : Option String

/-- A fully populated book record, as surviving `df_books.dropna()`. -/
structure Book where
  isbn : String
  title : String
  author : String

/-- Embeds `df_books.dropna(inplace=True)`: keep rows with every field present. -/
def dropnaBooks (bs : List RawBook) : List Book :=
  bs.filterMap (fun b =>
    match b.isbn, b.title, b.author with
    | some i, some t, some a => some ⟨i, t, a⟩
    | _, _, _ => none)

/-- Number of rating events of user `u` in `rs` (the user column of `value_counts`). -/
def countUser (rs : List Rating) (u : Int) : ℕ :=
  rs.countP (fun r => decide (r.user = u))

/-- Number of rating events of isbn `b` in `rs` (the isbn column of `value_counts`). -/
def countIsbn (rs : List Rating) (b : String) : ℕ :=
  rs.countP (fun r => decide (r.isbn = b))

/-- Embeds lines 78-80: keep ratings where the count of the user over the full
collection strictly exceeds `min_user_ratings`. -/
def userFiltered (rs : List Rating) (min_user_ratings : ℕ) : List Rating :=
  rs.filter (fun r => decide (min_user_ratings < countUser rs r.user))

/-- Embeds lines 83-85: on the user-filtered ratings, keep those where the count of the isbn over that already-filtered collection strictly exceeds
`min_book_ratings`. -/
def bookFiltered (rs : List Rating) (min_user_ratings min_book_ratings : ℕ) : List Rating :=
  let uf := userFiltered rs min_user_ratings
  uf.filter (fun r => decide (min_book_ratings < countIsbn uf r.isbn))

/-- Embeds the merge of ratings and books on isbn: inner join, every
rating row paired with every book row sharing its isbn. -/
def mergedRows (rs : List Rating) (books : List Book) : List (Rating × Book) :=
  rs.flatMap (fun r => (books.filter (fun bk => decide (bk.isbn = r.isbn))).map (fun bk => (r, bk)))

/-- Value of the pivoted matrix at row-isbn `b` and column-user `u`:
`pivot_table` (index user, columns isbn, values rating) aggregates
duplicate `(user, isbn)` entries with its default `mean`, and `.fillna(0)`
turns absent cells into `0`. -/
def cellVal (m : List (Rating × Book)) (b : String) (u : Int) : ℚ :=
  let vals := (m.filter (fun x => decide (x.1.isbn = b) && decide (x.1.user = u))).map (fun x => x.1.rating)
  if vals.length = 0 then 0 else vals.sum / (vals.length : ℚ)

/-- The pivoted, transposed, title-relabelled rating matrix (`self.books_data`):
row `i` holds the rating vector of item `rowIsbns[i]`, displayed under label
`rowTitles[i]`, over the user columns `cols`. -/
structure RatingMatrix where
  rowIsbns : List String
  rowTitles : List String
  cols : List Int
  rows : List (List ℚ)

/-- Ascending sort of strings, as `pivot_table` sorts its column labels. -/
def sortStrings (l : List String) : List String :=
  List.insertionSort (fun a b => a < b) l

/-- Ascending sort of integers, as `pivot_table` sorts its index labels. -/
def sortInts (l : List Int) : List Int :=
  List.insertionSort (fun a b => a < b) l

/-- Embeds `_load_and_process_data` (lines 41-97): dropna the books, filter
users then books by activity, inner-join with book metadata, pivot with mean
aggregation and zero fill, transpose, and relabel rows from isbn to title.
The title relabel looks up the first book carrying the isbn of the row; the real
join raises on duplicate matching isbns, so theorems touching titles assume
isbn uniqueness. -/
def load_and_process_data (booksRaw : List RawBook) (ratings : List Rating)
    (min_book_ratings min_user_ratings : ℕ) : RatingMatrix :=
  let books := dropnaBooks booksRaw
  let surv := bookFiltered ratings min_user_ratings min_book_ratings
  let m := mergedRows surv books
  let isbns := sortStrings ((m.map (fun x => x.1.isbn)).dedup)
  let users := sortInts ((m.map (fun x => x.1.user)).dedup)
  { rowIsbns := isbns
    rowTitles := isbns.map (fun b => (((books.find? (fun bk => decide (bk.isbn = b))).map Book.title).getD ""))
    cols := users
    rows := isbns.map (fun b => users.map (fun u => cellVal m b u)) }

/-- Dot product of two rating vectors. -/
def dotp (u v : List ℚ) : ℚ :=
  (List.zipWith (fun a b => a * b) u v).sum

/-- Squared Euclidean norm of a rating vector. -/
def normSq (v : List ℚ) : ℚ :=
  dotp v v

/-- Exact rational key representing the cosine similarity of `q` and `v`:
`simKey q v = s * |s|` where `s = dotp q v / sqrt (normSq q * normSq v)` is
the true cosine similarity.  Larger key means larger similarity, i.e.
smaller cosine distance. -/
def simKey (q v : List ℚ) : ℚ :=
  dotp q v * |dotp q v| / (normSq q * normSq v)

/-- Neighbour order used by the fitted index for a query vector `q`: row `i`
precedes row `j` when `i` is cosine-closer to `q`, with exact ties broken by
ascending row position (the internal, otherwise unspecified, order of the index). -/
def nbrLE (fitted : List (List ℚ)) (q : List ℚ) (i j : ℕ) : Prop :=
  simKey q (fitted.getD j []) < simKey q (fitted.getD i [])
    ∨ (simKey q (fitted.getD i []) = simKey q (fitted.getD j []) ∧ i ≤ j)

instance nbrLEDecidable (fitted : List (List ℚ)) (q : List ℚ) :
    DecidableRel (nbrLE fitted q) := fun i j => by
  unfold nbrLE
  exact inferInstance

instance nbrLETotal (fitted : List (List ℚ)) (q : List ℚ) :
    IsTotal ℕ (nbrLE fitted q) := by
  constructor
  intro i j
  rcases lt_trichotomy (simKey q (fitted.getD i [])) (simKey q (fitted.getD j [])) with h | h | h
  · exact Or.inr (Or.inl h)
  · rcases Nat.le_total i j with hij | hij
    · exact Or.inl (Or.inr ⟨h, hij⟩)
    · exact Or.inr (Or.inr ⟨h.symm, hij⟩)
  · exact Or.inl (Or.inl h)

instance nbrLETrans (fitted : List (List ℚ)) (q : List ℚ) :
    IsTrans ℕ (nbrLE fitted q) := by
  constructor
  intro a b c hab hbc
  rcases hab with hab | ⟨hab, hab'⟩
  · rcases hbc with hbc | ⟨hbc, _⟩
    · exact Or.inl (lt_trans hbc hab)
    · exact Or.inl (hbc ▸ hab)
  · rcases hbc with hbc | ⟨hbc, hbc'⟩
    · exact Or.inl (lt_of_lt_of_eq hbc hab.symm)
    · exact Or.inr ⟨hab.trans hbc, le_trans hab' hbc'⟩

/-- All fitted row positions, sorted by the neighbour order for query `q`. -/
def sortedNeighbors (fitted : List (List ℚ)) (q : List ℚ) : List ℕ :=
  List.insertionSort (nbrLE fitted q) (List.range fitted.length)

/-- Embeds `self.model.kneighbors(book_values, n)`: the positions of the `n`
nearest fitted rows by increasing cosine distance, or `none` when more
neighbours are requested than fitted rows (sklearn raises
`Expected n_neighbors <= n_samples`). -/
def kneighbors (fitted : List (List ℚ)) (q : List ℚ) (n : ℕ) : Option (List ℕ) :=
  if n ≤ fitted.length then some ((sortedNeighbors fitted q).take n) else none

/-- Embeds the `BookRecommendation` dataclass.  The float
`similarity_score = 1 - distance` is represented exactly by the pair
`(dot, prod)`: the score is the real number `dot / Real.sqrt prod`. -/
structure BookRecommendation where
  title : String
  dot : ℚ
  prod : ℚ

/-- The distinguishable failures of `get_recommendations`: the
`RuntimeError` for an untrained model, the `ValueError` naming a missing
title, and the `ValueError` sklearn raises when `n_neighbors` exceeds the
number of fitted rows. -/
inductive RecError where
  | notTrained : RecError
  | notFound : String → RecError
  | tooManyNeighbors : RecError
deriving DecidableEq

/-- State of the recommender: `self.books_data` and `self.model` (the model
holds the row vectors it was fitted on). -/
structure BookRecommender where
  books_data : Option RatingMatrix
  model : Option (List (List ℚ))

/-- Embeds `get_recommendations` (lines 127-167): reject an untrained model,
reject a title absent from the matrix index, locate the query row, ask the
index for `n_recommendations + 1` neighbours, drop the first returned
neighbour, and package the rest as recommendations with
`similarity_score = 1 - distance`. -/
def get_recommendations (st : BookRecommender) (book_title : String)
    (n_recommendations : ℕ) : Except RecError (List BookRecommendation) :=
  match st.model with
  | none => .error .notTrained
  | some fitted =>
    match st.books_data with
    | none => .error .notTrained
    | some m =>
      if book_title ∈ m.rowTitles then
        let idx := m.rowTitles.indexOf book_title
        let q := m.rows.getD idx []
        match kneighbors fitted q (n_recommendations + 1) with
        | none => .error .tooManyNeighbors
        | some nbrs =>
          .ok ((nbrs.drop 1).map (fun j =>
            { title := m.rowTitles.getD j ""
              dot := dotp q (fitted.getD j [])
              prod := normSq q * normSq (fitted.getD j []) }))
      else .error (.notFound book_title)

/-- Embeds `_train_model` (lines 109-125): fail if the data was not loaded,
otherwise fit the index on the matrix rows; the underlying
`NearestNeighbors.fit` rejects an empty matrix (zero samples), so fitting
succeeds only when the matrix has at least one row. -/
def train_model (st : BookRecommender) : Except String BookRecommender :=
  match st.books_data with
  | none => .error "Dados nao foram carregados corretamente"
  | some m =>
    if m.rows.length = 0 then .error "Found array with 0 samples"
    else .ok { st with model := some m.rows }

/-- Embeds `__init__` (lines 19-39): load and process the data, then train
the model; any failure propagates. -/
def mkBookRecommender (booksRaw : List RawBook) (ratings : List Rating)
    (min_book_ratings min_user_ratings : ℕ) : Except String BookRecommender :=
  train_model
    { books_data := some (load_and_process_data booksRaw ratings min_book_ratings min_user_ratings)
      model := none }

/-- Transcribes the row count asserted by the spec for C3: the number of
distinct isbns surviving both activity filters. -/
def claimedRowCount (ratings : List Rating) (min_book_ratings min_user_ratings : ℕ) : ℕ :=
  (((bookFiltered ratings min_user_ratings min_book_ratings).map (fun r => r.isbn)).dedup).length

/-- Transcribes the column count asserted by the spec for C3: the number of
distinct users surviving the user filter. -/
def claimedColCount (ratings : List Rating) (min_user_ratings : ℕ) : ℕ :=
  (((userFiltered ratings min_user_ratings).map (fun r => r.user)).dedup).length

/-! ## Helper lemmas -/

/-- Membership in the user filter. -/
theorem mem_userFiltered {rs : List Rating} {mu : ℕ} {r : Rating} :
    r ∈ userFiltered rs mu ↔ r ∈ rs ∧ mu < countUser rs r.user := by
  simp [userFiltered, List.mem_filter]

/-- Membership in the composed activity filter. -/
theorem mem_bookFiltered {rs : List Rating} {mu mb : ℕ} {r : Rating} :
    r ∈ bookFiltered rs mu mb ↔
      r ∈ userFiltered rs mu ∧ mb < countIsbn (userFiltered rs mu) r.isbn := by
  simp [bookFiltered, List.mem_filter]

/-- The sorted neighbour list is a permutation of all row positions. -/
theorem sortedNeighbors_perm (fitted : List (List ℚ)) (q : List ℚ) :
    (sortedNeighbors fitted q).Perm (List.range fitted.length) :=
  List.perm_insertionSort _ _

/-- The sorted neighbour list enumerates every fitted row position once. -/
theorem length_sortedNeighbors (fitted : List (List ℚ)) (q : List ℚ) :
    (sortedNeighbors fitted q).length = fitted.length := by
  rw [(sortedNeighbors_perm fitted q).length_eq, List.length_range]

theorem mem_sortedNeighbors {fitted : List (List ℚ)} {q : List ℚ} {j : ℕ} :
    j ∈ sortedNeighbors fitted q ↔ j < fitted.length := by
  rw [(sortedNeighbors_perm fitted q).mem_iff, List.mem_range]

theorem nodup_sortedNeighbors (fitted : List (List ℚ)) (q : List ℚ) :
    (sortedNeighbors fitted q).Nodup :=
  ((sortedNeighbors_perm fitted q).nodup_iff).2 (List.nodup_range _)

theorem sorted_sortedNeighbors (fitted : List (List ℚ)) (q : List ℚ) :
    List.Sorted (nbrLE fitted q) (sortedNeighbors fitted q) :=
  List.sorted_insertionSort _ _

/-- A successfully built recommender holds the matrix it was trained on. -/
theorem mkBookRecommender_eq (booksRaw : List RawBook) (ratings : List Rating)
    (mb mu : ℕ) {st : BookRecommender}
    (h : mkBookRecommender booksRaw ratings mb mu = .ok st) :
    st = { books_data := some (load_and_process_data booksRaw ratings mb mu)
           model := some (load_and_process_data booksRaw ratings mb mu).rows } := by
  unfold mkBookRecommender train_model at h
  dsimp only at h
  by_cases hz : (load_and_process_data booksRaw ratings mb mu).rows.length = 0
  · rw [if_pos hz] at h
    exact absurd h (by simp)
  · rw [if_neg hz] at h
    exact (Except.ok.inj h).symm

/-! ## Claim theorems -/

/-- C4: a rating survives the filtering of the preparation pipeline exactly when
the rating count of its user over the **full** ratings collection strictly exceeds
`min_user_ratings` and the rating count of its isbn over the **already
user-filtered** ratings strictly exceeds `min_book_ratings`; user filtering
happens strictly before item filtering and both thresholds are exclusive. -/
theorem claim4_filter_order (rs : List Rating) (mu mb : ℕ) (r : Rating) :
    r ∈ bookFiltered rs mu mb ↔
      (r ∈ rs ∧ mu < countUser rs r.user) ∧
        mb < countIsbn (rs.filter (fun x => decide (mu < countUser rs x.user))) r.isbn := by
  rw [mem_bookFiltered, mem_userFiltered]
  rfl

/-- Matrices with equal contents: same row labels, same columns, same cells. -/
def sameContents (m₁ m₂ : RatingMatrix) : Prop :=
  m₁.rowIsbns = m₂.rowIsbns ∧ m₁.rowTitles = m₂.rowTitles ∧ m₁.cols = m₂.cols ∧ m₁.rows = m₂.rows

/-- C8: the preparation pipeline is a deterministic function of its inputs —
two runs on identical sources and identical thresholds produce matrices with
identical contents. -/
theorem claim8_deterministic (bs₁ bs₂ : List RawBook) (rs₁ rs₂ : List Rating)
    (mb mu : ℕ) (hb : bs₁ = bs₂) (hr : rs₁ = rs₂) :
    sameContents (load_and_process_data bs₁ rs₁ mb mu)
      (load_and_process_data bs₂ rs₂ mb mu) := by
  subst hb
  subst hr
  exact ⟨rfl, rfl, rfl, rfl⟩

/-- Witness for C8 at a concrete input. -/
theorem claim8_witness :
    sameContents
      (load_and_process_data [⟨some "1", some "Jewel", some "A"⟩] [⟨1, "1", 1⟩] 0 0)
      (load_and_process_data [⟨some "1", some "Jewel", some "A"⟩] [⟨1, "1", 1⟩] 0 0) :=
  claim8_deterministic _ _ _ _ 0 0 rfl rfl

/-- C9: a successfully constructed recommender has both the rating matrix and
the fitted model present, so the untrained-model error branch of
`get_recommendations` can never fire for it. -/
theorem claim9_built_state (booksRaw : List RawBook) (ratings : List Rating)
    (mb mu : ℕ) (st : BookRecommender)
    (h : mkBookRecommender booksRaw ratings mb mu = .ok st) :
    st.books_data.isSome ∧ st.model.isSome ∧
      ∀ t k, get_recommendations st t k ≠ .error .notTrained := by
  rw [mkBookRecommender_eq booksRaw ratings mb mu h]
  refine ⟨rfl, rfl, fun t k => ?_⟩
  unfold get_recommendations
  dsimp only
  split
  · split <;> simp
  · simp

/-- Witness for C9 at a concrete one-book, one-rating input whose matrix is
nonempty, so the real fit succeeds as well. -/
theorem claim9_witness :
    ({ books_data := some (load_and_process_data [⟨some "1", some "T", some "A"⟩]
          [⟨1, "1", 1⟩] 0 0)
       model := some (load_and_process_data [⟨some "1", some "T", some "A"⟩]
          [⟨1, "1", 1⟩] 0 0).rows } : BookRecommender).books_data.isSome ∧
    ({ books_data := some (load_and_process_data [⟨some "1", some "T", some "A"⟩]
          [⟨1, "1", 1⟩] 0 0)
       model := some (load_and_process_data [⟨some "1", some "T", some "A"⟩]
          [⟨1, "1", 1⟩] 0 0).rows } : BookRecommender).model.isSome ∧
      ∀ t k, get_recommendations
        { books_data := some (load_and_process_data [⟨some "1", some "T", some "A"⟩]
            [⟨1, "1", 1⟩] 0 0)
          model := some (load_and_process_data [⟨some "1", some "T", some "A"⟩]
            [⟨1, "1", 1⟩] 0 0).rows } t k ≠ .error .notTrained :=
  claim9_built_state [⟨some "1", some "T", some "A"⟩] [⟨1, "1", 1⟩] 0 0 _ rfl

/-- C6: on a built recommender, `get_recommendations` fails with the
not-found error naming the requested title exactly when that title is absent
from the row labels of the matrix; no other condition produces that error. -/
theorem claim6_notFound_iff (m : RatingMatrix) (t : String) (k : ℕ) :
    get_recommendations { books_data := some m, model := some m.rows } t k
        = .error (.notFound t)
      ↔ t ∉ m.rowTitles := by
  unfold get_recommendations
  dsimp only
  by_cases ht : t ∈ m.rowTitles
  · rcases h : kneighbors m.rows (m.rows.getD (m.rowTitles.indexOf t) []) (k + 1) with _ | nbrs <;>
      simp [ht, h]
  · simp [ht]

/-- C2 is refuted: on a built recommender whose matrix has a single row
(title `Jewel`), requesting one recommendation does not return an empty
sequence — the neighbour search rejects `n_neighbors = 2 > n_samples = 1`
and the query raises, contradicting the claimed error-free behaviour. -/
theorem claim2_counterexample :
    (mkBookRecommender [⟨some "1", some "Jewel", some "A"⟩]
        [⟨1, "1", 1⟩, ⟨2, "1", 1⟩] 1 0).map
      (fun st => get_recommendations st "Jewel" 1)
      = Except.ok (Except.error RecError.tooManyNeighbors) := by
  norm_num +decide [mkBookRecommender, train_model, load_and_process_data, dropnaBooks,
    bookFiltered, userFiltered, countUser, countIsbn, mergedRows, cellVal, sortStrings,
    sortInts, get_recommendations, kneighbors, sortedNeighbors, nbrLE, simKey, dotp, normSq,
    List.insertionSort, List.orderedInsert, List.countP, List.countP.go,
    List.filter, List.filterMap, List.flatMap, List.dedup, List.find?, List.indexOf,
    List.findIdx, List.findIdx.go, List.range, List.range.loop, Except.map]

/-- C2 (amended): on a built recommender, for a present title labelling
exactly one row, the query returns exactly `k` recommendations when the
matrix has at least `k + 1` rows; when it has fewer, the query does **not**
return the fewer available recommendations — it fails with the
neighbour-count error the underlying index raises for
`n_neighbors > n_samples`.  The uniqueness hypothesis confines the claim to
where the first-match model of `Index.get_loc` is faithful: for a title
labelling several rows the real lookup yields a slice selecting them all and
the reshaped multi-row query makes `kneighbors` raise a feature-mismatch
error instead of returning recommendations. -/
theorem claim2_result_count (m : RatingMatrix) (t : String) (k : ℕ)
    (ht : t ∈ m.rowTitles)
    (huniq : ∀ j, j < m.rowTitles.length → m.rowTitles.getD j "" = t →
      j = m.rowTitles.indexOf t) :
    (k + 1 ≤ m.rows.length →
      ∃ recs,
        get_recommendations { books_data := some m, model := some m.rows } t k = .ok recs
          ∧ recs.length = k)
    ∧ (m.rows.length < k + 1 →
      get_recommendations { books_data := some m, model := some m.rows } t k
        = .error .tooManyNeighbors) := by
  constructor
  · intro hk
    unfold get_recommendations
    dsimp only
    rw [if_pos ht]
    have hkn : kneighbors m.rows (m.rows.getD (m.rowTitles.indexOf t) []) (k + 1)
        = some ((sortedNeighbors m.rows (m.rows.getD (m.rowTitles.indexOf t) [])).take (k + 1)) := by
      unfold kneighbors
      rw [if_pos hk]
    rw [hkn]
    refine ⟨_, rfl, ?_⟩
    simp only [List.length_map, List.length_drop, List.length_take,
      length_sortedNeighbors]
    omega
  · intro hk
    unfold get_recommendations
    dsimp only
    rw [if_pos ht]
    have hkn : kneighbors m.rows (m.rows.getD (m.rowTitles.indexOf t) []) (k + 1) = none := by
      unfold kneighbors
      rw [if_neg (by omega)]
    rw [hkn]

/-- Witness for C2 (amended) at a concrete one-row matrix and `k = 0`. -/
theorem claim2_witness :
    (0 + 1 ≤ (RatingMatrix.mk ["1"] ["A"] [1] [[1]]).rows.length →
      ∃ recs,
        get_recommendations
            { books_data := some (RatingMatrix.mk ["1"] ["A"] [1] [[1]])
              model := some (RatingMatrix.mk ["1"] ["A"] [1] [[1]]).rows } "A" 0 = .ok recs
          ∧ recs.length = 0)
    ∧ ((RatingMatrix.mk ["1"] ["A"] [1] [[1]]).rows.length < 0 + 1 →
      get_recommendations
          { books_data := some (RatingMatrix.mk ["1"] ["A"] [1] [[1]])
            model := some (RatingMatrix.mk ["1"] ["A"] [1] [[1]]).rows } "A" 0
        = .error .tooManyNeighbors) :=
  claim2_result_count (RatingMatrix.mk ["1"] ["A"] [1] [[1]]) "A" 0 (by decide) (by decide)

/-- C3 is refuted: with one book `A` and ratings on isbns `A` and `X` under
thresholds `0`, both isbns and both users survive the activity filters
(`claimedRowCount = claimedColCount = 2`), but the inner join with book
metadata drops isbn `X` and user `2`, so the matrix is 1 by 1. -/
theorem claim3_counterexample :
    (load_and_process_data [⟨some "A", some "T", some "Au"⟩]
        [⟨1, "A", 1⟩, ⟨2, "X", 1⟩] 0 0).rows.length = 1
    ∧ claimedRowCount [⟨1, "A", 1⟩, ⟨2, "X", 1⟩] 0 0 = 2
    ∧ (load_and_process_data [⟨some "A", some "T", some "Au"⟩]
        [⟨1, "A", 1⟩, ⟨2, "X", 1⟩] 0 0).cols.length = 1
    ∧ claimedColCount [⟨1, "A", 1⟩, ⟨2, "X", 1⟩] 0 = 2 := by
  norm_num +decide [load_and_process_data, dropnaBooks, claimedRowCount, claimedColCount,
    bookFiltered, userFiltered, countUser, countIsbn, mergedRows, cellVal, sortStrings,
    sortInts, List.insertionSort, List.orderedInsert, List.countP, List.countP.go,
    List.filter, List.filterMap, List.flatMap, List.dedup, List.find?]

/-- Sorting strings preserves length. -/
theorem length_sortStrings (l : List String) : (sortStrings l).length = l.length :=
  (List.perm_insertionSort _ _).length_eq

/-- Sorting integers preserves length. -/
theorem length_sortInts (l : List Int) : (sortInts l).length = l.length :=
  (List.perm_insertionSort _ _).length_eq

/-- The row count of the pipeline output is the number of distinct isbns
appearing in the merged rows. -/
theorem rows_length_eq (bs : List RawBook) (rs : List Rating) (mb mu : ℕ) :
    (load_and_process_data bs rs mb mu).rows.length
      = (((mergedRows (bookFiltered rs mu mb) (dropnaBooks bs)).map
          (fun x => x.1.isbn)).toFinset).card := by
  unfold load_and_process_data
  dsimp only
  rw [List.length_map, length_sortStrings, List.card_toFinset]

/-- The column count of the pipeline output is the number of distinct users
appearing in the merged rows. -/
theorem cols_length_eq (bs : List RawBook) (rs : List Rating) (mb mu : ℕ) :
    (load_and_process_data bs rs mb mu).cols.length
      = (((mergedRows (bookFiltered rs mu mb) (dropnaBooks bs)).map
          (fun x => x.1.user)).toFinset).card := by
  unfold load_and_process_data
  dsimp only
  rw [length_sortInts, List.card_toFinset]

/-- Distinct isbns of the merged rows are the distinct isbns of the ratings
that have matching book metadata. -/
theorem mergedRows_isbn_toFinset (rs : List Rating) (books : List Book) :
    ((mergedRows rs books).map (fun x => x.1.isbn)).toFinset
      = ((rs.filter (fun r => books.any (fun bk => decide (bk.isbn = r.isbn)))).map
          (fun r => r.isbn)).toFinset := by
  ext b
  simp [mergedRows, List.mem_filter, List.any_eq_true]

/-- Distinct users of the merged rows are the distinct users of the ratings
that have matching book metadata. -/
theorem mergedRows_user_toFinset (rs : List Rating) (books : List Book) :
    ((mergedRows rs books).map (fun x => x.1.user)).toFinset
      = ((rs.filter (fun r => books.any (fun bk => decide (bk.isbn = r.isbn)))).map
          (fun r => r.user)).toFinset := by
  ext u
  simp [mergedRows, List.mem_filter, List.any_eq_true]

/-- C3 (amended): the row count of the built matrix equals the number of
distinct isbns that survive both activity filters **and** have matching book
metadata, and the column count equals the number of distinct users still
owning a surviving, metadata-matched rating — not the counts claimed over
the filters alone. -/
theorem claim3_amended (bs : List RawBook) (rs : List Rating) (mb mu : ℕ) :
    (load_and_process_data bs rs mb mu).rows.length
      = (((bookFiltered rs mu mb).filter
          (fun r => (dropnaBooks bs).any (fun bk => decide (bk.isbn = r.isbn)))).map
            (fun r => r.isbn)).dedup.length
    ∧ (load_and_process_data bs rs mb mu).cols.length
      = (((bookFiltered rs mu mb).filter
          (fun r => (dropnaBooks bs).any (fun bk => decide (bk.isbn = r.isbn)))).map
            (fun r => r.user)).dedup.length := by
  constructor
  · rw [rows_length_eq, mergedRows_isbn_toFinset, List.card_toFinset]
  · rw [cols_length_eq, mergedRows_user_toFinset, List.card_toFinset]

/-- Raising the user threshold keeps a superset relation between the
user-filtered rating collections. -/
theorem userFiltered_anti {rs : List Rating} {mu mu' : ℕ} (h : mu ≤ mu') :
    (userFiltered rs mu').Sublist (userFiltered rs mu) := by
  apply List.monotone_filter_right
  intro r hr
  simp only [decide_eq_true_eq] at hr ⊢
  omega

/-- Raising either threshold keeps a superset relation between the surviving
rating collections. -/
theorem bookFiltered_anti {rs : List Rating} {mu mu' mb mb' : ℕ}
    (hu : mu ≤ mu') (hb : mb ≤ mb') :
    ∀ r ∈ bookFiltered rs mu' mb', r ∈ bookFiltered rs mu mb := by
  intro r hr
  rw [mem_bookFiltered] at hr ⊢
  rcases hr with ⟨hmem, hcnt⟩
  refine ⟨(userFiltered_anti hu).mem hmem, ?_⟩
  have hle : countIsbn (userFiltered rs mu') r.isbn ≤ countIsbn (userFiltered rs mu) r.isbn :=
    (userFiltered_anti hu).countP_le _
  omega

/-- Merging a smaller rating collection yields a subset of merged rows. -/
theorem mergedRows_mono {rs rs' : List Rating} {books : List Book}
    (h : ∀ r ∈ rs', r ∈ rs) :
    ∀ x ∈ mergedRows rs' books, x ∈ mergedRows rs books := by
  intro x hx
  simp only [mergedRows, List.mem_flatMap] at hx ⊢
  rcases hx with ⟨r, hr, hx⟩
  exact ⟨r, h r hr, hx⟩

/-- C7: raising `min_user_ratings` or `min_book_ratings` (all else equal)
never increases the row count or the column count of the resulting rating
matrix. -/
theorem claim7_monotone (bs : List RawBook) (rs : List Rating)
    (mb mb' mu mu' : ℕ) (hb : mb ≤ mb') (hu : mu ≤ mu') :
    (load_and_process_data bs rs mb' mu').rows.length
        ≤ (load_and_process_data bs rs mb mu).rows.length
    ∧ (load_and_process_data bs rs mb' mu').cols.length
        ≤ (load_and_process_data bs rs mb mu).cols.length := by
  have hsub : ∀ r ∈ bookFiltered rs mu' mb', r ∈ bookFiltered rs mu mb :=
    bookFiltered_anti hu hb
  have hmer := @mergedRows_mono _ _ (dropnaBooks bs) hsub
  constructor
  · rw [rows_length_eq, rows_length_eq]
    apply Finset.card_le_card
    intro b hbm
    simp only [List.mem_toFinset, List.mem_map] at hbm ⊢
    rcases hbm with ⟨x, hx, rfl⟩
    exact ⟨x, hmer x hx, rfl⟩
  · rw [cols_length_eq, cols_length_eq]
    apply Finset.card_le_card
    intro u hum
    simp only [List.mem_toFinset, List.mem_map] at hum ⊢
    rcases hum with ⟨x, hx, rfl⟩
    exact ⟨x, hmer x hx, rfl⟩

/-- Witness for C7 at concrete thresholds `10 ≤ 11`, `100 ≤ 101`. -/
theorem claim7_witness :
    (load_and_process_data [] [] 101 11).rows.length
        ≤ (load_and_process_data [] [] 100 10).rows.length
    ∧ (load_and_process_data [] [] 101 11).cols.length
        ≤ (load_and_process_data [] [] 100 10).cols.length :=
  claim7_monotone [] [] 100 101 10 11 (by decide) (by decide)

theorem dotp_cons (a b : ℚ) (u v : List ℚ) :
    dotp (a :: u) (b :: v) = a * b + dotp u v := by
  simp [dotp]

/-- Squared norms are nonnegative. -/
theorem normSq_nonneg (v : List ℚ) : 0 ≤ normSq v := by
  induction v with
  | nil => simp [normSq, dotp]
  | cons a v ih =>
    rw [normSq, dotp_cons]
    have : 0 ≤ a * a := mul_self_nonneg a
    have hv : 0 ≤ dotp v v := ih
    linarith

/-- A nonzero row is perfectly similar to itself: its self key is `1`. -/
theorem simKey_self {q : List ℚ} (h : normSq q ≠ 0) : simKey q q = 1 := by
  unfold simKey
  rw [show dotp q q = normSq q from rfl, abs_of_nonneg (normSq_nonneg q)]
  exact div_self (mul_ne_zero h h)

/-- If one row position is strictly cosine-closest to the query, it heads the
sorted neighbour list, and appears nowhere else in it. -/
theorem sortedNeighbors_eq_cons {fitted : List (List ℚ)} {q : List ℚ} {idx : ℕ}
    (hidx : idx < fitted.length)
    (hmax : ∀ j, j < fitted.length → j ≠ idx →
      simKey q (fitted.getD j []) < simKey q (fitted.getD idx [])) :
    ∃ rest, sortedNeighbors fitted q = idx :: rest ∧ idx ∉ rest := by
  cases h : sortedNeighbors fitted q with
  | nil =>
    exfalso
    have := length_sortedNeighbors fitted q
    rw [h] at this
    simp at this
    omega
  | cons hd tl =>
    have hsor := sorted_sortedNeighbors fitted q
    rw [h] at hsor
    have hd_mem : hd ∈ sortedNeighbors fitted q := by
      rw [h]
      exact List.mem_cons_self _ _
    have hd_lt : hd < fitted.length := mem_sortedNeighbors.1 hd_mem
    have hidx_mem : idx ∈ sortedNeighbors fitted q := mem_sortedNeighbors.2 hidx
    by_cases hne : hd = idx
    · subst hne
      refine ⟨tl, rfl, ?_⟩
      have hnd := nodup_sortedNeighbors fitted q
      rw [h] at hnd
      exact (List.nodup_cons.1 hnd).1
    · exfalso
      have hin : idx ∈ tl := by
        rw [h] at hidx_mem
        rcases List.mem_cons.1 hidx_mem with h' | h'
        · exact absurd h'.symm hne
        · exact h'
      have hrel := List.rel_of_sorted_cons hsor idx hin
      have hlt := hmax hd hd_lt hne
      rcases hrel with h' | ⟨h', _⟩
      · exact absurd h' (lt_asymm hlt)
      · exact absurd h' (ne_of_lt hlt)

/-- C1 is refuted: build a recommender from two books with identical rating
vectors (users 1 and 2 both rate both books 1).  Querying `Other` — the
second row — asks for `k + 1 = 2` neighbours; both rows are at cosine
distance 0 from the query, the tie resolves to row 0 (`Jewel`) first, and
dropping that first neighbour leaves `Other` itself as the single returned
recommendation. -/
theorem claim1_counterexample :
    (mkBookRecommender
        [⟨some "1", some "Jewel", some "A"⟩, ⟨some "2", some "Other", some "B"⟩]
        [⟨1, "1", 1⟩, ⟨1, "2", 1⟩, ⟨2, "1", 1⟩, ⟨2, "2", 1⟩] 1 1).map
      (fun st => (get_recommendations st "Other" 1).map (List.map BookRecommendation.title))
      = Except.ok (Except.ok ["Other"]) := by
  norm_num +decide [mkBookRecommender, train_model, load_and_process_data, dropnaBooks,
    bookFiltered, userFiltered, countUser, countIsbn, mergedRows, cellVal, sortStrings,
    sortInts, get_recommendations, kneighbors, sortedNeighbors, nbrLE, simKey, dotp, normSq,
    List.insertionSort, List.orderedInsert, List.countP, List.countP.go,
    List.filter, List.filterMap, List.flatMap, List.dedup, List.find?, List.indexOf,
    List.findIdx, List.findIdx.go, List.range, List.range.loop, Except.map]

/-- C1 (amended): the claim holds under the two conditions its refutation
forces — `t` labels exactly one row, and the query row is **strictly** its
own nearest neighbour (no other row lies at cosine distance 0 from it).
Then no returned recommendation carries the queried title. -/
theorem claim1_no_self_recommendation (m : RatingMatrix) (t : String) (k : ℕ)
    (recs : List BookRecommendation)
    (hlen : m.rowTitles.length = m.rows.length)
    (huniq : ∀ j, j < m.rowTitles.length → m.rowTitles.getD j "" = t →
      j = m.rowTitles.indexOf t)
    (hnear : ∀ j, j < m.rows.length → j ≠ m.rowTitles.indexOf t →
      simKey (m.rows.getD (m.rowTitles.indexOf t) []) (m.rows.getD j [])
        < simKey (m.rows.getD (m.rowTitles.indexOf t) [])
            (m.rows.getD (m.rowTitles.indexOf t) []))
    (hok : get_recommendations { books_data := some m, model := some m.rows } t k
      = .ok recs) :
    ∀ r ∈ recs, r.title ≠ t := by
  unfold get_recommendations at hok
  dsimp only at hok
  by_cases ht : t ∈ m.rowTitles
  · rw [if_pos ht] at hok
    have hidx : m.rowTitles.indexOf t < m.rows.length :=
      hlen ▸ List.indexOf_lt_length.2 ht
    rcases hkn : kneighbors m.rows (m.rows.getD (m.rowTitles.indexOf t) []) (k + 1)
      with _ | nbrs
    · rw [hkn] at hok
      exact absurd hok (by simp)
    · rw [hkn] at hok
      have hrecs := Except.ok.inj hok
      have hnbrs : nbrs = (sortedNeighbors m.rows
          (m.rows.getD (m.rowTitles.indexOf t) [])).take (k + 1) := by
        unfold kneighbors at hkn
        by_cases hk : k + 1 ≤ m.rows.length
        · rw [if_pos hk] at hkn
          exact (Option.some.inj hkn).symm
        · rw [if_neg hk] at hkn
          exact absurd hkn (by simp)
      rcases sortedNeighbors_eq_cons hidx
          (fun j hj hne => hnear j hj hne) with ⟨rest, hcons, hnotin⟩
      intro r hr
      rw [← hrecs] at hr
      rcases List.mem_map.1 hr with ⟨jpos, hjmem, hjr⟩
      have hjrest : jpos ∈ rest := by
        rw [hnbrs, hcons, List.take_succ_cons, List.drop_one, List.tail_cons] at hjmem
        exact (List.take_sublist _ _).mem hjmem
      have hjne : jpos ≠ m.rowTitles.indexOf t := fun h => hnotin (h ▸ hjrest)
      have hjlt : jpos < m.rows.length := by
        have : jpos ∈ sortedNeighbors m.rows (m.rows.getD (m.rowTitles.indexOf t) []) := by
          rw [hcons]
          exact List.mem_cons_of_mem _ hjrest
        exact mem_sortedNeighbors.1 this
      intro hcontra
      apply hjne
      apply huniq jpos (hlen ▸ hjlt)
      rw [← hjr] at hcontra
      exact hcontra
  · rw [if_neg ht] at hok
    exact absurd hok (by simp)

/-- Witness for C1 (amended): two orthogonal rows, query `A`, one
recommendation — and it is not `A`. -/
theorem claim1_witness :
    (BookRecommendation.mk "B" 0 1).title ≠ "A" :=
  claim1_no_self_recommendation
    (RatingMatrix.mk ["1", "2"] ["A", "B"] [1, 2] [[1, 0], [0, 1]]) "A" 1
    [BookRecommendation.mk "B" 0 1] rfl (by decide)
    (by
      intro j hj hne
      have hidx : List.indexOf "A" ["A", "B"] = 0 := by decide
      rw [hidx] at hne ⊢
      have hj1 : j = 1 := by
        simp only [List.length_cons, List.length_nil] at hj
        omega
      subst hj1
      simp [simKey, dotp, normSq])
    (by
      simp [get_recommendations, kneighbors, sortedNeighbors, nbrLE, simKey, dotp, normSq,
        List.insertionSort, List.orderedInsert, List.range, List.range.loop,
        List.indexOf, List.findIdx, List.findIdx.go])
    (BookRecommendation.mk "B" 0 1) (List.mem_singleton.mpr rfl)

/-- The map `x ↦ x * |x|` is strictly monotone on the reals. -/
theorem mulAbs_strictMono : StrictMono (fun x : ℝ => x * |x|) := by
  intro x y hxy
  rcases le_or_lt 0 x with hx | hx
  · have hy : 0 < y := lt_of_le_of_lt hx hxy
    simp only [abs_of_nonneg hx, abs_of_pos hy]
    nlinarith
  · rcases le_or_lt 0 y with hy | hy
    · simp only [abs_of_neg hx, abs_of_nonneg hy]
      nlinarith
    · simp only [abs_of_neg hx, abs_of_neg hy]
      nlinarith

/-- Casting the rational similarity key of a pair `(d, p)` with `p > 0`
yields the sign-square of the true cosine similarity `d / sqrt p`. -/
theorem simKey_cast (d p : ℚ) (hp : 0 < p) :
    ((d * |d| / p : ℚ) : ℝ)
      = ((d : ℝ) / Real.sqrt (p : ℝ)) * |(d : ℝ) / Real.sqrt (p : ℝ)| := by
  have hp0 : (0 : ℝ) < (p : ℝ) := by exact_mod_cast hp
  have hsq : Real.sqrt (p : ℝ) * Real.sqrt (p : ℝ) = (p : ℝ) := Real.mul_self_sqrt hp0.le
  have hs_pos : 0 < Real.sqrt (p : ℝ) := Real.sqrt_pos.2 hp0
  calc ((d * |d| / p : ℚ) : ℝ) = (d : ℝ) * |(d : ℝ)| / (p : ℝ) := by
        push_cast
        ring
    _ = (d : ℝ) * |(d : ℝ)| / (Real.sqrt (p : ℝ) * Real.sqrt (p : ℝ)) := by rw [hsq]
    _ = ((d : ℝ) / Real.sqrt (p : ℝ)) * (|(d : ℝ)| / Real.sqrt (p : ℝ)) :=
        (div_mul_div_comm _ _ _ _).symm
    _ = ((d : ℝ) / Real.sqrt (p : ℝ)) * |(d : ℝ) / Real.sqrt (p : ℝ)| := by
        rw [abs_div, abs_of_pos hs_pos]

/-- Comparing rational similarity keys is the same as comparing the true
(real, square-root-valued) cosine similarities. -/
theorem simKey_le_iff (d₁ p₁ d₂ p₂ : ℚ) (hp₁ : 0 < p₁) (hp₂ : 0 < p₂) :
    d₁ * |d₁| / p₁ ≤ d₂ * |d₂| / p₂
      ↔ (d₁ : ℝ) / Real.sqrt (p₁ : ℝ) ≤ (d₂ : ℝ) / Real.sqrt (p₂ : ℝ) := by
  rw [← @Rat.cast_le _ _ ℝ _, simKey_cast d₁ p₁ hp₁, simKey_cast d₂ p₂ hp₂]
  exact mulAbs_strictMono.le_iff_le

/-- Row access by a valid position yields a member of the row list. -/
theorem getD_mem_rows {rows : List (List ℚ)} {x : ℕ} (hx : x < rows.length) :
    rows.getD x [] ∈ rows := by
  rw [List.getD_eq_getElem _ _ hx]
  exact List.getElem_mem hx

/-- C5: on a built recommender with no zero rows, a successful query returns
recommendations sorted by non-increasing similarity score (the real number
`dot / sqrt prod`), and every returned score is `1 -` the cosine distance
the neighbour index reports for the corresponding matrix row. -/
theorem claim5_sorted_by_similarity (m : RatingMatrix) (t : String) (k : ℕ)
    (recs : List BookRecommendation)
    (hlen : m.rowTitles.length = m.rows.length)
    (hpos : ∀ v ∈ m.rows, 0 < normSq v)
    (hok : get_recommendations { books_data := some m, model := some m.rows } t k
      = .ok recs) :
    recs.Pairwise (fun a b =>
      (b.dot : ℝ) / Real.sqrt (b.prod : ℝ) ≤ (a.dot : ℝ) / Real.sqrt (a.prod : ℝ))
    ∧ ∀ r ∈ recs, ∃ i, i < m.rows.length
        ∧ r.title = m.rowTitles.getD i ""
        ∧ (r.dot : ℝ) / Real.sqrt (r.prod : ℝ)
            = 1 - (1 - (dotp (m.rows.getD (m.rowTitles.indexOf t) [])
                  (m.rows.getD i []) : ℝ)
                / Real.sqrt ((normSq (m.rows.getD (m.rowTitles.indexOf t) [])
                    * normSq (m.rows.getD i []) : ℚ) : ℝ)) := by
  unfold get_recommendations at hok
  dsimp only at hok
  by_cases ht : t ∈ m.rowTitles
  · rw [if_pos ht] at hok
    have hidx : m.rowTitles.indexOf t < m.rows.length :=
      hlen ▸ List.indexOf_lt_length.2 ht
    have hposq : 0 < normSq (m.rows.getD (m.rowTitles.indexOf t) []) :=
      hpos _ (getD_mem_rows hidx)
    rcases hkn : kneighbors m.rows (m.rows.getD (m.rowTitles.indexOf t) []) (k + 1)
      with _ | nbrs
    · rw [hkn] at hok
      exact absurd hok (by simp)
    · rw [hkn] at hok
      have hrecs := Except.ok.inj hok
      have hnbrs : nbrs = (sortedNeighbors m.rows
          (m.rows.getD (m.rowTitles.indexOf t) [])).take (k + 1) := by
        unfold kneighbors at hkn
        by_cases hk : k + 1 ≤ m.rows.length
        · rw [if_pos hk] at hkn
          exact (Option.some.inj hkn).symm
        · rw [if_neg hk] at hkn
          exact absurd hkn (by simp)
      have hsubL : (nbrs.drop 1).Sublist
          (sortedNeighbors m.rows (m.rows.getD (m.rowTitles.indexOf t) [])) := by
        rw [hnbrs]
        exact (List.drop_sublist _ _).trans (List.take_sublist _ _)
      have hmemL : ∀ x ∈ nbrs.drop 1, x < m.rows.length := fun x hx =>
        mem_sortedNeighbors.1 (hsubL.mem hx)
      have hsorL : (nbrs.drop 1).Pairwise
          (nbrLE m.rows (m.rows.getD (m.rowTitles.indexOf t) [])) :=
        List.Pairwise.sublist hsubL (sorted_sortedNeighbors _ _)
      constructor
      · rw [← hrecs, List.pairwise_map]
        refine hsorL.imp_of_mem ?_
        intro a b ha hb hab
        have hpa : 0 < normSq (m.rows.getD (m.rowTitles.indexOf t) [])
            * normSq (m.rows.getD a []) :=
          mul_pos hposq (hpos _ (getD_mem_rows (hmemL a ha)))
        have hpb : 0 < normSq (m.rows.getD (m.rowTitles.indexOf t) [])
            * normSq (m.rows.getD b []) :=
          mul_pos hposq (hpos _ (getD_mem_rows (hmemL b hb)))
        have hkey : simKey (m.rows.getD (m.rowTitles.indexOf t) []) (m.rows.getD b [])
            ≤ simKey (m.rows.getD (m.rowTitles.indexOf t) []) (m.rows.getD a []) := by
          rcases hab with h | ⟨h, _⟩
          · exact h.le
          · exact h.ge
        unfold simKey at hkey
        exact (simKey_le_iff _ _ _ _ hpb hpa).1 hkey
      · intro r hr
        rw [← hrecs] at hr
        rcases List.mem_map.1 hr with ⟨i, hi, hir⟩
        refine ⟨i, hmemL i hi, ?_, ?_⟩
        · rw [← hir]
        · rw [← hir]
          ring
  · rw [if_neg ht] at hok
    exact absurd hok (by simp)

/-- Witness for C5 at a concrete two-row matrix: the single returned
recommendation is trivially sorted and its score is `1 -` the reported
cosine distance of row 1. -/
theorem claim5_witness :
    ([BookRecommendation.mk "B" 0 1]).Pairwise (fun a b =>
      (b.dot : ℝ) / Real.sqrt (b.prod : ℝ) ≤ (a.dot : ℝ) / Real.sqrt (a.prod : ℝ))
    ∧ ∀ r ∈ [BookRecommendation.mk "B" 0 1], ∃ i,
        i < (RatingMatrix.mk ["1", "2"] ["A", "B"] [1, 2] [[1, 0], [0, 1]]).rows.length
        ∧ r.title = (RatingMatrix.mk ["1", "2"] ["A", "B"] [1, 2]
            [[1, 0], [0, 1]]).rowTitles.getD i ""
        ∧ (r.dot : ℝ) / Real.sqrt (r.prod : ℝ)
            = 1 - (1 - (dotp ((RatingMatrix.mk ["1", "2"] ["A", "B"] [1, 2]
                    [[1, 0], [0, 1]]).rows.getD
                  (List.indexOf "A" (RatingMatrix.mk ["1", "2"] ["A", "B"] [1, 2]
                    [[1, 0], [0, 1]]).rowTitles) [])
                  ((RatingMatrix.mk ["1", "2"] ["A", "B"] [1, 2]
                    [[1, 0], [0, 1]]).rows.getD i []) : ℝ)
                / Real.sqrt ((normSq ((RatingMatrix.mk ["1", "2"] ["A", "B"] [1, 2]
                      [[1, 0], [0, 1]]).rows.getD
                    (List.indexOf "A" (RatingMatrix.mk ["1", "2"] ["A", "B"] [1, 2]
                      [[1, 0], [0, 1]]).rowTitles) [])
                    * normSq ((RatingMatrix.mk ["1", "2"] ["A", "B"] [1, 2]
                      [[1, 0], [0, 1]]).rows.getD i []) : ℚ) : ℝ)) :=
  claim5_sorted_by_similarity
    (RatingMatrix.mk ["1", "2"] ["A", "B"] [1, 2] [[1, 0], [0, 1]]) "A" 1
    [BookRecommendation.mk "B" 0 1] rfl
    (by intro v hv; fin_cases hv <;> simp [normSq, dotp])
    (by
      simp [get_recommendations, kneighbors, sortedNeighbors, nbrLE, simKey, dotp, normSq,
        List.insertionSort, List.orderedInsert, List.range, List.range.loop,
        List.indexOf, List.findIdx, List.findIdx.go])

/-- With unique isbns in the books table, filtering for the isbn of a known
book finds exactly that book. -/
theorem filter_isbn_eq_singleton {books : List Book} {bk : Book}
    (hnd : (books.map Book.isbn).Nodup) (hbk : bk ∈ books) :
    books.filter (fun x => decide (x.isbn = bk.isbn)) = [bk] := by
  induction books with
  | nil => exact absurd hbk (List.not_mem_nil bk)
  | cons a bs ih =>
    rw [List.map_cons, List.nodup_cons] at hnd
    rcases List.mem_cons.1 hbk with rfl | hmem
    · rw [List.filter_cons_of_pos (by simp)]
      have : bs.filter (fun x => decide (x.isbn = bk.isbn)) = [] := by
        rw [List.filter_eq_nil_iff]
        intro x hx
        simp only [decide_eq_true_eq]
        intro hiso
        exact hnd.1 (hiso ▸ List.mem_map_of_mem Book.isbn hx)
      rw [this]
    · rw [List.filter_cons_of_neg, ih hnd.2 hmem]
      simp only [decide_eq_true_eq]
      intro hiso
      exact hnd.1 (hiso ▸ List.mem_map_of_mem Book.isbn hmem)

/-- With unique isbns, the merge contributes exactly one joined row per
surviving rating of a given isbn, so the pivoted cell values for a
`(user, isbn)` pair read off the surviving ratings of that pair. -/
theorem mergedRows_filter_map_rating {rs : List Rating} {books : List Book} {bk : Book}
    (hnd : (books.map Book.isbn).Nodup) (hbk : bk ∈ books) (u : Int) :
    ((mergedRows rs books).filter
        (fun x => decide (x.1.isbn = bk.isbn) && decide (x.1.user = u))).map
      (fun x => x.1.rating)
      = (rs.filter (fun r => decide (r.isbn = bk.isbn) && decide (r.user = u))).map
          (fun r => r.rating) := by
  induction rs with
  | nil => simp [mergedRows]
  | cons r rest ih =>
    rw [show mergedRows (r :: rest) books
        = (books.filter (fun x => decide (x.isbn = r.isbn))).map (fun x => (r, x))
          ++ mergedRows rest books from rfl]
    rw [List.filter_append, List.map_append, ih, List.filter_map]
    by_cases hri : r.isbn = bk.isbn
    · by_cases hru : r.user = u
      · rw [List.filter_cons_of_pos (by simp [hri, hru])]
        have hconst : (((fun x : Rating × Book => decide (x.1.isbn = bk.isbn)
              && decide (x.1.user = u)) ∘ fun x : Book => (r, x))
            = fun _ : Book => true) := by
          funext x
          simp [hri, hru]
        rw [hconst, List.filter_true, hri, filter_isbn_eq_singleton hnd hbk]
        rfl
      · rw [List.filter_cons_of_neg (by simp [hru])]
        have hconst : (((fun x : Rating × Book => decide (x.1.isbn = bk.isbn)
              && decide (x.1.user = u)) ∘ fun x : Book => (r, x))
            = fun _ : Book => false) := by
          funext x
          simp [hru]
        rw [hconst, List.filter_false]
        rfl
    · rw [List.filter_cons_of_neg (by simp [hri])]
      have hconst : (((fun x : Rating × Book => decide (x.1.isbn = bk.isbn)
            && decide (x.1.user = u)) ∘ fun x : Book => (r, x))
          = fun _ : Book => false) := by
        funext x
        simp [hri]
      rw [hconst, List.filter_false]
      rfl

/-- C10: when several surviving rating events share a `(user, isbn)` pair,
the matrix cell for that pair holds the arithmetic mean of those ratings
(the pivot aggregates duplicates by averaging).  `b` and `u` are the row
isbn and column user at position `(i, j)` of the built matrix, and the
books table carries unique isbns (the relabel join requires this). -/
theorem claim10_duplicate_mean (bs : List RawBook) (rs : List Rating) (mb mu : ℕ)
    (i j : ℕ) (b : String) (u : Int)
    (hnd : ((dropnaBooks bs).map Book.isbn).Nodup)
    (hi : i < (load_and_process_data bs rs mb mu).rowIsbns.length)
    (hj : j < (load_and_process_data bs rs mb mu).cols.length)
    (hb : b = (load_and_process_data bs rs mb mu).rowIsbns.getD i "")
    (hu : u = (load_and_process_data bs rs mb mu).cols.getD j 0)
    (hne : ((bookFiltered rs mu mb).filter
        (fun r => decide (r.isbn = b) && decide (r.user = u))).length ≠ 0) :
    ((load_and_process_data bs rs mb mu).rows.getD i []).getD j 0
      = (((bookFiltered rs mu mb).filter
            (fun r => decide (r.isbn = b) && decide (r.user = u))).map
          (fun r => r.rating)).sum
        / (((bookFiltered rs mu mb).filter
            (fun r => decide (r.isbn = b) && decide (r.user = u))).length : ℚ) := by
  have hIs : (load_and_process_data bs rs mb mu).rowIsbns
      = sortStrings (((mergedRows (bookFiltered rs mu mb) (dropnaBooks bs)).map
          (fun x => x.1.isbn)).dedup) := rfl
  have hCols : (load_and_process_data bs rs mb mu).cols
      = sortInts (((mergedRows (bookFiltered rs mu mb) (dropnaBooks bs)).map
          (fun x => x.1.user)).dedup) := rfl
  have hRows : (load_and_process_data bs rs mb mu).rows
      = (sortStrings (((mergedRows (bookFiltered rs mu mb) (dropnaBooks bs)).map
          (fun x => x.1.isbn)).dedup)).map
        (fun c => (sortInts (((mergedRows (bookFiltered rs mu mb) (dropnaBooks bs)).map
            (fun x => x.1.user)).dedup)).map
          (fun w => cellVal (mergedRows (bookFiltered rs mu mb) (dropnaBooks bs)) c w)) := rfl
  rw [hIs] at hi hb
  rw [hCols] at hj hu
  have hrow : (load_and_process_data bs rs mb mu).rows.getD i []
      = (sortInts (((mergedRows (bookFiltered rs mu mb) (dropnaBooks bs)).map
          (fun x => x.1.user)).dedup)).map
        (fun w => cellVal (mergedRows (bookFiltered rs mu mb) (dropnaBooks bs)) b w) := by
    rw [hRows, List.getD_eq_getElem _ _ (by rw [List.length_map]; exact hi),
      List.getElem_map, ← List.getD_eq_getElem _ "" hi, ← hb]
  have hcell : ((load_and_process_data bs rs mb mu).rows.getD i []).getD j 0
      = cellVal (mergedRows (bookFiltered rs mu mb) (dropnaBooks bs)) b u := by
    rw [hrow, List.getD_eq_getElem _ _ (by rw [List.length_map]; exact hj),
      List.getElem_map, ← List.getD_eq_getElem _ 0 hj, ← hu]
  have hbmem : b ∈ (mergedRows (bookFiltered rs mu mb) (dropnaBooks bs)).map
      (fun x => x.1.isbn) := by
    have hsmem : (sortStrings (((mergedRows (bookFiltered rs mu mb) (dropnaBooks bs)).map
        (fun x => x.1.isbn)).dedup)).getD i ""
        ∈ sortStrings (((mergedRows (bookFiltered rs mu mb) (dropnaBooks bs)).map
          (fun x => x.1.isbn)).dedup) := by
      rw [List.getD_eq_getElem _ _ hi]
      exact List.getElem_mem hi
    rw [← hb] at hsmem
    exact List.mem_dedup.1 ((List.perm_insertionSort _ _).mem_iff.1 hsmem)
  rcases List.mem_map.1 hbmem with ⟨x, hx, hxisbn⟩
  have hbook : ∃ bk ∈ dropnaBooks bs, bk.isbn = b := by
    rcases List.mem_flatMap.1 hx with ⟨r, _, hxr⟩
    rcases List.mem_map.1 hxr with ⟨bk, hbkf, hxeq⟩
    rcases List.mem_filter.1 hbkf with ⟨hbkmem, hbkiso⟩
    simp only [decide_eq_true_eq] at hbkiso
    refine ⟨bk, hbkmem, ?_⟩
    rw [hbkiso]
    rw [← hxeq] at hxisbn
    exact hxisbn
  rcases hbook with ⟨bk, hbkmem, hbkiso⟩
  have hvals := @mergedRows_filter_map_rating
    (bookFiltered rs mu mb) _ _ hnd hbkmem u
  rw [hbkiso] at hvals
  rw [hcell]
  show (if (((mergedRows (bookFiltered rs mu mb) (dropnaBooks bs)).filter
        (fun x => decide (x.1.isbn = b) && decide (x.1.user = u))).map
      (fun x => x.1.rating)).length = 0 then 0
    else (((mergedRows (bookFiltered rs mu mb) (dropnaBooks bs)).filter
        (fun x => decide (x.1.isbn = b) && decide (x.1.user = u))).map
      (fun x => x.1.rating)).sum
      / ((((mergedRows (bookFiltered rs mu mb) (dropnaBooks bs)).filter
          (fun x => decide (x.1.isbn = b) && decide (x.1.user = u))).map
        (fun x => x.1.rating)).length : ℚ)) = _
  rw [hvals, List.length_map]
  rw [if_neg hne]

/-- Witness for C10: user 1 rates isbn `1` twice (0 and 1); the single
matrix cell averages the two surviving ratings. -/
theorem claim10_witness :
    ((load_and_process_data [⟨some "1", some "T", some "A"⟩]
        [⟨1, "1", 0⟩, ⟨1, "1", 1⟩] 1 1).rows.getD 0 []).getD 0 0
      = (((bookFiltered [⟨1, "1", 0⟩, ⟨1, "1", 1⟩] 1 1).filter
            (fun r => decide (r.isbn = "1") && decide (r.user = 1))).map
          (fun r => r.rating)).sum
        / (((bookFiltered [⟨1, "1", 0⟩, ⟨1, "1", 1⟩] 1 1).filter
            (fun r => decide (r.isbn = "1") && decide (r.user = 1))).length : ℚ) :=
  claim10_duplicate_mean [⟨some "1", some "T", some "A"⟩] [⟨1, "1", 0⟩, ⟨1, "1", 1⟩]
    1 1 0 0 "1" 1 (by decide) (by decide) (by decide) (by decide) (by decide) (by decide)

/-- Every pipeline-built matrix has as many title labels as rows, so the
length-coherence hypothesis of the query theorems holds for every built
recommender. -/
theorem load_titles_rows_length (bs : List RawBook) (rs : List Rating) (mb mu : ℕ) :
    (load_and_process_data bs rs mb mu).rowTitles.length
      = (load_and_process_data bs rs mb mu).rows.length := by
  simp [load_and_process_data, List.length_map]

end Recomendation